import Mathlib

/-!
Verification development for the structural element core of
`src/src/elasticity/structural_element_base.cpp` (MAST multiphysics).

The C++ source is shallowly embedded over exact rationals (`ℚ` stands for
the C++ `Real` double arithmetic).  Nodal degrees of freedom are indexed by
pairs `(j, i) : Fin 6 × Fin n`, the pair form of the flat index
`j*n_dofs + i` used throughout the source (3 translational + 3 rotational
components per node, `n` shape functions).  Fatal conditions
(`libmesh_error`, `libmesh_assert`) are modelled by `Except Unit`.
The Eigen temporaries the source accumulates into (`local_f`,
`local_jac`, `force`) are modelled as zero-initialized, which is what
the accumulation loops assume of them.
-/

namespace MASTSpec

open Matrix

/-- A spatial point (`libMesh::Point`), three rational coordinates. -/
abbrev Pt := Fin 3 → ℚ

/-- Degree-of-freedom index for an element with `n` shape functions:
the pair `(j, i)` stands for the flat index `j*n + i` of the source. -/
abbrev Dof (n : ℕ) := Fin 6 × Fin n

/-- A local or global element vector of size `6n` (`RealVectorX`). -/
abbrev Vec6n (n : ℕ) := Dof n → ℚ

/-- A 3×3 matrix (`RealMatrixX` holding the local rotation `T`). -/
abbrev Mat3 := Matrix (Fin 3) (Fin 3) ℚ

/-- A 6×6 matrix (inertia matrix at a point). -/
abbrev Mat6 := Matrix (Fin 6) (Fin 6) ℚ

/-- A `6n × 6n` element matrix (`RealMatrixX`). -/
abbrev Mat6n (n : ℕ) := Matrix (Dof n) (Dof n) ℚ

/-- Boundary-condition type tags (`MAST::BoundaryConditionType`).
Tags other than the four named ones are collapsed into `other`. -/
inductive BCType : Type where
  | SURFACE_PRESSURE : BCType
  | TEMPERATURE : BCType
  | SMALL_DISTURBANCE_MOTION : BCType
  | DIRICHLET : BCType
  | other : ℕ → BCType
deriving DecidableEq

/-- A boundary condition (`MAST::BoundaryConditionBase`): a type tag plus
the named field functions used by the pressure routines
(accessors "pressure", "dpressure", "dnormal"). -/
structure BoundaryCondition where
  bctype : BCType
  pressure : Pt → ℚ → ℚ
  dpressure : Pt → ℚ → ℚ
  dnormal : Pt → ℚ → (Fin 3 → ℚ)

/-- Side finite-element data produced by `_get_side_fe_and_qrule`:
quadrature weights `JxW`, quadrature point locations, face normals and
shape function values (node, quadrature point). -/
structure SideFE (n : ℕ) where
  nqp : ℕ
  JxW : ℕ → ℚ
  qpoint : ℕ → Pt
  normals : ℕ → Pt
  phi : Fin n → ℕ → ℚ

/-- The state of one structural element (`MAST::StructuralElementBase`
together with the members of `MAST::ElementBase` and the collaborator
data it reads): geometry, the local-frame rotation `Tmat`, the property
card flags, the element quadrature rule, cached local solution vectors,
per-side quadrature data, and the boundary/subdomain identifiers.
`thermal_upd`/`thermal_flag` — Modelled from the spec: the thermal
residual routine (TEMPERATURE dispatch) is implemented in element
subclasses that are not part of this excerpt; it is modelled as an
update of `(f, jac)` plus a returned jacobian flag. -/
structure SElem (n : ℕ) where
  dim : ℕ
  Tmat : Mat3
  follower_forces : Bool
  if_diagonal_mass_matrix : Bool
  time : ℚ
  nqp : ℕ
  JxW : ℕ → ℚ
  xyz : ℕ → Pt
  phi : Fin n → ℕ → ℚ
  gcl : Pt → Pt
  inertia : Pt → ℚ → Mat6
  local_accel : Vec6n n
  local_sol : Vec6n n
  local_vel : Vec6n n
  local_base_sol : Vec6n n
  sol : Vec6n n
  vel : Vec6n n
  base_sol : Vec6n n
  sideFE : ℕ → SideFE n
  side_bc_ids : List (List ℕ)
  subdomain_id : ℕ
  thermal_upd : Bool → Vec6n n × Mat6n n → Vec6n n × Mat6n n
  thermal_flag : Bool → Bool

/-- The 6×6 two-block copy of the 3×3 rotation `T`: the translational
group (`u,v,w`, indices 0..2) and the rotational group (`tx,ty,tz`,
indices 3..5) each receive a copy of `T`, exactly as in the loops of
`transform_vector_to_local_system` and friends. -/
def T6 (T : Mat3) : Mat6 := fun j k =>
  if hj : j.val < 3 then
    (if hk : k.val < 3 then T ⟨j.val, hj⟩ ⟨k.val, hk⟩ else 0)
  else
    (if hk : k.val < 3 then 0
     else T ⟨j.val - 3, by omega⟩ ⟨k.val - 3, by omega⟩)

/-- The `6n × 6n` block transformation matrix built by the source's
triple loop: `mat(j*n+i, k*n+i) = T(j,k)` for the translational DOFs and
`mat((j+3)*n+i, (k+3)*n+i) = T(j,k)` for the rotational DOFs, all other
entries zero. -/
def blockT (n : ℕ) (T : Mat3) : Mat6n n := fun p q =>
  if p.2 = q.2 then T6 T p.1 q.1 else 0

/-- `transform_vector_to_local_system`: left multiply with the transpose
of the block transformation. -/
def transform_vector_to_local_system (e : SElem n) (v : Vec6n n) : Vec6n n :=
  (blockT n e.Tmat)ᵀ.mulVec v

/-- `transform_vector_to_global_system`: left multiply with the block
transformation. -/
def transform_vector_to_global_system (e : SElem n) (v : Vec6n n) : Vec6n n :=
  (blockT n e.Tmat).mulVec v

/-- `transform_matrix_to_global_system`: the similarity transform
`T · M_local · Tᵗ`. -/
def transform_matrix_to_global_system (e : SElem n) (m : Mat6n n) : Mat6n n :=
  blockT n e.Tmat * m * (blockT n e.Tmat)ᵀ

/-- The origin point, used by concrete test elements. -/
def pt0 : Pt := fun _ => 0

/-- An empty side quadrature rule (no quadrature points). -/
def sfe0 : SideFE 1 :=
  { nqp := 0, JxW := fun _ => 0, qpoint := fun _ => pt0,
    normals := fun _ => pt0, phi := fun _ _ => 0 }

/-- A concrete one-node 1D element with identity local rotation, used as
the base input for witnesses and counterexamples. -/
def elem0 : SElem 1 :=
  { dim := 1, Tmat := 1, follower_forces := false,
    if_diagonal_mass_matrix := false, time := 0, nqp := 0,
    JxW := fun _ => 0, xyz := fun _ => pt0, phi := fun _ _ => 0,
    gcl := id, inertia := fun _ _ => 0, local_accel := fun _ => 0,
    local_sol := fun _ => 0, local_vel := fun _ => 0,
    local_base_sol := fun _ => 0, sol := fun _ => 0, vel := fun _ => 0,
    base_sol := fun _ => 0, sideFE := fun _ => sfe0, side_bc_ids := [],
    subdomain_id := 0, thermal_upd := fun _ s => s,
    thermal_flag := fun b => b }

/-- A 90° rotation about the z axis, entry by entry. -/
def rotZ : Mat3 := fun j k =>
  if j = 0 ∧ k = 1 then -1
  else if j = 1 ∧ k = 0 then 1
  else if j = 2 ∧ k = 2 then 1
  else 0

/-- The base element with a genuine (non-identity) orthonormal local
rotation: a 90° rotation about the z axis. -/
def elemRot : SElem 1 := { elem0 with Tmat := rotZ }

/-- A concrete global vector with distinct entries. -/
def vW : Vec6n 1 := fun p => (p.1.val : ℚ) + 1

/-- Modelled from the spec: `numerics/fem_operator_matrix.h` is not part
of this excerpt.  The shape-function operator built by
`Bmat.reinit(2*n1, phi_vec)` interpolates each of the 6 nodal variable
groups by the same shape functions: `B(i, (k, j)) = phi(j)` when the
variable rows match (`i = k`) and `0` otherwise, so that
`Bmat.vector_mult_transpose` is multiplication by `Bᵀ` and
`Bmat.left_multiply` / `Bmat.right_multiply_transpose` are the matrix
products forced by the dimensions. -/
def FEMOp (phiv : Fin n → ℚ) : Matrix (Fin 6) (Dof n) ℚ := fun i p =>
  if i = p.1 then phiv p.2 else 0

/-- The state threaded through boundary-load dispatch and the pressure
residual routines: the residual vector `f`, the jacobian `jac`, and the
`calculate_jac` accumulator. -/
abbrev DState (n : ℕ) := Vec6n n × Mat6n n × Bool

/-- One quadrature-point contribution of the steady
`surface_pressure_residual` loop: evaluate the pressure at the mapped
quadrature point, build the force `press * normal` on the translational
components (rows 3..5 of `force` are never written, hence zero), and
project through `Bᵀ`, weighted by `JxW`. -/
def spr_term (e : SElem n) (sfe : SideFE n) (press_fn : Pt → ℚ → ℚ)
    (qp : ℕ) : Vec6n n :=
  let pt := e.gcl (sfe.qpoint qp)
  let press := press_fn pt e.time
  sfe.JxW qp •
    (FEMOp (fun i => sfe.phi i qp))ᵀ.mulVec
      (fun i => if h : i.val < 3 then press * sfe.normals qp ⟨i.val, h⟩ else 0)

/-- The `local_f` accumulation loop of the steady pressure routines. -/
def spr_local_f (e : SElem n) (sfe : SideFE n) (press_fn : Pt → ℚ → ℚ) :
    Vec6n n :=
  (List.range sfe.nqp).foldl (fun acc qp => acc + spr_term e sfe press_fn qp) 0

/-- `surface_pressure_residual` (side variant, lines 345-418): asserts
that follower forces are off, integrates `press * face_normal` over the
side quadrature rule, transforms to the global frame for 1D/2D elements,
and returns `request_jacobian && follower_forces`. -/
def surface_pressure_residual_side (e : SElem n) (request_jacobian : Bool)
    (f : Vec6n n) (jac : Mat6n n) (side : ℕ) (bc : BoundaryCondition) :
    Except Unit (DState n) :=
  if e.follower_forces then .error ()
  else
    let local_f := spr_local_f e (e.sideFE side) bc.pressure
    let f2 := if e.dim < 3 then f + transform_vector_to_global_system e local_f
              else f + local_f
    .ok (f2, jac, request_jacobian && e.follower_forces)

/-- The element-interior quadrature data packaged in the shape used by
the whole-element (volume) pressure routines: the element's own rule
`_fe` with the assumed constant normal along the local z axis for 2D and
the local y axis for 1D (`normal(_elem.dim()) = -1`). -/
def volFE (e : SElem n) : SideFE n :=
  { nqp := e.nqp, JxW := e.JxW, qpoint := e.xyz,
    normals := fun _ => (fun i => if i.val = e.dim then -1 else 0),
    phi := e.phi }

/-- `surface_pressure_residual` (whole-element variant, lines 424-495):
asserts the element dimension is below 3 and follower forces are off,
integrates the pressure against the assumed local normal over the
element rule, always transforms to the global frame, and returns
`request_jacobian && follower_forces`. -/
def surface_pressure_residual_vol (e : SElem n) (request_jacobian : Bool)
    (f : Vec6n n) (jac : Mat6n n) (bc : BoundaryCondition) :
    Except Unit (DState n) :=
  if 3 ≤ e.dim then .error ()
  else if e.follower_forces then .error ()
  else
    let local_f := spr_local_f e (volFE e) bc.pressure
    .ok (f + transform_vector_to_global_system e local_f, jac,
      request_jacobian && e.follower_forces)

/-- Exact complex scalars (the model of the C++ `Complex` value type of
the small-disturbance instantiation): a real and an imaginary rational
part. -/
@[ext]
structure CplxQ : Type where
  re : ℚ
  im : ℚ
deriving DecidableEq

namespace CplxQ

instance : Zero CplxQ := ⟨⟨0, 0⟩⟩
instance : One CplxQ := ⟨⟨1, 0⟩⟩
instance : Add CplxQ := ⟨fun a b => ⟨a.re + b.re, a.im + b.im⟩⟩
instance : Neg CplxQ := ⟨fun a => ⟨-a.re, -a.im⟩⟩
instance : Mul CplxQ := ⟨fun a b => ⟨a.re * b.re - a.im * b.im, a.re * b.im + a.im * b.re⟩⟩

@[simp] lemma zero_re : (0 : CplxQ).re = 0 := rfl
@[simp] lemma zero_im : (0 : CplxQ).im = 0 := rfl
@[simp] lemma one_re : (1 : CplxQ).re = 1 := rfl
@[simp] lemma one_im : (1 : CplxQ).im = 0 := rfl
@[simp] lemma add_re (a b : CplxQ) : (a + b).re = a.re + b.re := rfl
@[simp] lemma add_im (a b : CplxQ) : (a + b).im = a.im + b.im := rfl
@[simp] lemma neg_re (a : CplxQ) : (-a).re = -a.re := rfl
@[simp] lemma neg_im (a : CplxQ) : (-a).im = -a.im := rfl
@[simp] lemma mul_re (a b : CplxQ) : (a * b).re = a.re * b.re - a.im * b.im := rfl
@[simp] lemma mul_im (a b : CplxQ) : (a * b).im = a.re * b.im + a.im * b.re := rfl

instance : CommRing CplxQ where
  add := (· + ·)
  add_assoc a b c := by ext <;> simp <;> ring
  zero := 0
  zero_add a := by ext <;> simp
  add_zero a := by ext <;> simp
  add_comm a b := by ext <;> simp <;> ring
  mul := (· * ·)
  mul_assoc a b c := by ext <;> simp <;> ring
  one := 1
  one_mul a := by ext <;> simp
  mul_one a := by ext <;> simp
  left_distrib a b c := by ext <;> simp <;> ring
  right_distrib a b c := by ext <;> simp <;> ring
  mul_comm a b := by ext <;> simp <;> ring
  zero_mul a := by ext <;> simp
  mul_zero a := by ext <;> simp
  neg := Neg.neg
  neg_add_cancel a := by ext <;> simp
  nsmul := nsmulRec
  zsmul := zsmulRec

/-- The coercion of a real scalar into a complex scalar, as a ring
homomorphism (the implicit `Real → Complex` conversion of the C++
template instantiation). -/
def ofRat : ℚ →+* CplxQ where
  toFun q := ⟨q, 0⟩
  map_one' := rfl
  map_mul' a b := by ext <;> simp
  map_zero' := rfl
  map_add' a b := by ext <;> simp

end CplxQ


/-- The force computed at one quadrature point of the small-disturbance
pressure loop (`force(i_dim) = press * dn_rot(i_dim) + dpress *
normal(i_dim)` for the three translational components; rows 3..5 are
never written, hence zero).  The routine is generic in the unsteady
value type `R`, with `ι` the coercion of real scalars into `R`. -/
def sd_force {R : Type} [CommRing R] (ι : ℚ →+* R) (press : ℚ) (dpress : R)
    (dn_rot : Fin 3 → R) (nrm : Pt) : Fin 6 → R := fun i =>
  if h : i.val < 3 then ι press * dn_rot ⟨i.val, h⟩ + dpress * ι (nrm ⟨i.val, h⟩)
  else 0

/-- One quadrature-point contribution of the small-disturbance pressure
loop: the force projected through `Bᵀ`, weighted by `JxW[qp]`. -/
def sd_term {R : Type} [CommRing R] (ι : ℚ →+* R) (e : SElem n) (sfe : SideFE n)
    (press_fn : Pt → ℚ → ℚ) (dpress_fn : Pt → ℚ → R)
    (dn_fn : Pt → ℚ → (Fin 3 → R)) (qp : ℕ) : Dof n → R :=
  let pt := e.gcl (sfe.qpoint qp)
  ι (sfe.JxW qp) •
    ((FEMOp (fun i => sfe.phi i qp)).map ι)ᵀ.mulVec
      (sd_force ι (press_fn pt e.time) (dpress_fn pt e.time)
        (dn_fn pt e.time) (sfe.normals qp))

/-- The `local_f` accumulation loop shared verbatim by both the
real-valued and the complex-valued instantiation of
`small_disturbance_surface_pressure_residual` (single-sourced body,
parameterized over the numeric type `R`). -/
def sd_local_f {R : Type} [CommRing R] (ι : ℚ →+* R) (e : SElem n)
    (sfe : SideFE n) (press_fn : Pt → ℚ → ℚ) (dpress_fn : Pt → ℚ → R)
    (dn_fn : Pt → ℚ → (Fin 3 → R)) : Dof n → R :=
  (List.range sfe.nqp).foldl
    (fun acc qp => acc + sd_term ι e sfe press_fn dpress_fn dn_fn qp) 0

/-- The real-valued instantiation of the small-disturbance pressure
loop (the `ValType = Real` template instantiation). -/
def sd_local_f_real (e : SElem n) (sfe : SideFE n) (press_fn : Pt → ℚ → ℚ)
    (dpress_fn : Pt → ℚ → ℚ) (dn_fn : Pt → ℚ → (Fin 3 → ℚ)) : Dof n → ℚ :=
  sd_local_f (RingHom.id ℚ) e sfe press_fn dpress_fn dn_fn

/-- The complex-valued instantiation of the small-disturbance pressure
loop (the `ValType = Complex` template instantiation). -/
def sd_local_f_cplx (e : SElem n) (sfe : SideFE n) (press_fn : Pt → ℚ → ℚ)
    (dpress_fn : Pt → ℚ → CplxQ) (dn_fn : Pt → ℚ → (Fin 3 → CplxQ)) :
    Dof n → CplxQ :=
  sd_local_f CplxQ.ofRat e sfe press_fn dpress_fn dn_fn

/-- `small_disturbance_surface_pressure_residual` (side variant, lines
500-598) at the real instantiation used by `side_external_residual<Real>`:
asserts follower forces are off and that the condition's tag is
`SMALL_DISTURBANCE_MOTION`, accumulates the small-disturbance force over
the side rule, transforms to the global frame for 1D/2D elements, and
returns `request_jacobian && follower_forces`.  (The final addition is
`MAST::add_to_assembled_vector` from `numerics/utility.h`, not in this
excerpt; for the real instantiation it is modelled from the spec as the
plain additive aggregation into `f`.) -/
def small_disturbance_surface_pressure_residual_side (e : SElem n)
    (request_jacobian : Bool) (f : Vec6n n) (jac : Mat6n n) (side : ℕ)
    (bc : BoundaryCondition) : Except Unit (DState n) :=
  if e.follower_forces then .error ()
  else if bc.bctype = BCType.SMALL_DISTURBANCE_MOTION then
    let local_f := sd_local_f_real e (e.sideFE side) bc.pressure bc.dpressure bc.dnormal
    let f2 := if e.dim < 3 then f + transform_vector_to_global_system e local_f
              else f + local_f
    .ok (f2, jac, request_jacobian && e.follower_forces)
  else .error ()

/-- `small_disturbance_surface_pressure_residual` (whole-element variant,
lines 606-696) at the real instantiation: additionally asserts the
element dimension is below 3, and uses the assumed local normal. -/
def small_disturbance_surface_pressure_residual_vol (e : SElem n)
    (request_jacobian : Bool) (f : Vec6n n) (jac : Mat6n n)
    (bc : BoundaryCondition) : Except Unit (DState n) :=
  if 3 ≤ e.dim then .error ()
  else if e.follower_forces then .error ()
  else if bc.bctype = BCType.SMALL_DISTURBANCE_MOTION then
    let local_f := sd_local_f_real e (volFE e) bc.pressure bc.dpressure bc.dnormal
    .ok (f + transform_vector_to_global_system e local_f, jac,
      request_jacobian && e.follower_forces)
  else .error ()

/-- `bc.equal_range(k)`: all conditions registered under identifier `k`,
in map order. -/
def equalRange (bcmap : List (ℕ × BoundaryCondition)) (k : ℕ) :
    List BoundaryCondition :=
  (bcmap.filter (fun x => x.1 == k)).map (fun x => x.2)

/-- The flattening of `side_external_residual`'s triple loop: for each
side (in order), for each boundary id registered on that side, every
condition found for that id, paired with the side index. -/
def sideMatched (e : SElem n) (bcmap : List (ℕ × BoundaryCondition)) :
    List (ℕ × BoundaryCondition) :=
  e.side_bc_ids.enum.flatMap (fun p =>
    p.2.flatMap (fun bid => (equalRange bcmap bid).map (fun bc => (p.1, bc))))

/-- The body of the `switch` in `side_external_residual` for one matched
condition: `calculate_jac = (calculate_jac || handler(...))` — note the
C++ short-circuit: when `calculate_jac` is already `true` the handler is
not invoked at all.  `DIRICHLET` does nothing; any other unsupported tag
is `libmesh_error()`. -/
def side_dispatch_one (e : SElem n) (request_jacobian : Bool) (side : ℕ)
    (bc : BoundaryCondition) (s : DState n) : Except Unit (DState n) :=
  match bc.bctype with
  | BCType.SURFACE_PRESSURE =>
    if s.2.2 then .ok s
    else surface_pressure_residual_side e request_jacobian s.1 s.2.1 side bc
  | BCType.SMALL_DISTURBANCE_MOTION =>
    if s.2.2 then .ok s
    else small_disturbance_surface_pressure_residual_side e request_jacobian
      s.1 s.2.1 side bc
  | BCType.DIRICHLET => .ok s
  | _ => .error ()

/-- The loop of `side_external_residual` over all matched conditions,
aborting at the first fatal error. -/
def runSideDispatch (e : SElem n) (request_jacobian : Bool) :
    List (ℕ × BoundaryCondition) → DState n → Except Unit (DState n)
  | [], s => .ok s
  | p :: rest, s =>
    match side_dispatch_one e request_jacobian p.1 p.2 s with
    | .error u => .error u
    | .ok s1 => runSideDispatch e request_jacobian rest s1

/-- `side_external_residual` (lines 213-284): dispatch every boundary
condition matched on the element's sides and return
`(request_jacobian && calculate_jac)`. -/
def side_external_residual (e : SElem n) (request_jacobian : Bool)
    (f : Vec6n n) (jac : Mat6n n) (bcmap : List (ℕ × BoundaryCondition)) :
    Except Unit (DState n) :=
  (runSideDispatch e request_jacobian (sideMatched e bcmap)
      (f, jac, false)).map
    (fun s => (s.1, s.2.1, request_jacobian && s.2.2))

/-- The body of the `switch` in `volume_external_residual` for one
matched condition.  `SURFACE_PRESSURE`, `TEMPERATURE` and
`SMALL_DISTURBANCE_MOTION` are routed to handlers (with the same C++
short-circuit on `calculate_jac`); everything else — `DIRICHLET`
included — hits the `default:` branch and is `libmesh_error()`. -/
def volume_dispatch_one (e : SElem n) (request_jacobian : Bool)
    (bc : BoundaryCondition) (s : DState n) : Except Unit (DState n) :=
  match bc.bctype with
  | BCType.SURFACE_PRESSURE =>
    if s.2.2 then .ok s
    else surface_pressure_residual_vol e request_jacobian s.1 s.2.1 bc
  | BCType.TEMPERATURE =>
    if s.2.2 then .ok s
    else
      let fj := e.thermal_upd request_jacobian (s.1, s.2.1)
      .ok (fj.1, fj.2, e.thermal_flag request_jacobian)
  | BCType.SMALL_DISTURBANCE_MOTION =>
    if s.2.2 then .ok s
    else small_disturbance_surface_pressure_residual_vol e request_jacobian
      s.1 s.2.1 bc
  | _ => .error ()

/-- The loop of `volume_external_residual` over all matched conditions. -/
def runVolDispatch (e : SElem n) (request_jacobian : Bool) :
    List BoundaryCondition → DState n → Except Unit (DState n)
  | [], s => .ok s
  | bc :: rest, s =>
    match volume_dispatch_one e request_jacobian bc s with
    | .error u => .error u
    | .ok s1 => runVolDispatch e request_jacobian rest s1

/-- `volume_external_residual` (lines 287-340): dispatch every boundary
condition registered for the element's subdomain id and return
`(request_jacobian && calculate_jac)`. -/
def volume_external_residual (e : SElem n) (request_jacobian : Bool)
    (f : Vec6n n) (jac : Mat6n n) (bcmap : List (ℕ × BoundaryCondition)) :
    Except Unit (DState n) :=
  (runVolDispatch e request_jacobian (equalRange bcmap e.subdomain_id)
      (f, jac, false)).map
    (fun s => (s.1, s.2.1, request_jacobian && s.2.2))

/-- Result of `inertial_residual`: the accumulated residual, the
acceleration jacobian block, the returned flag, and the instrumentation
`log` recording, in order, every location at which the inertia
field function `(*mat_inertia)(p, _time, ...)` was evaluated. -/
structure InertialOut (n : ℕ) where
  f : Vec6n n
  jac_xddot : Mat6n n
  ret : Bool
  log : List Pt

/-- The lumped-mass element volume: the sum of the quadrature weights
divided by the number of shape functions (`vol /= 1.*nshp`). -/
def lumped_vol (e : SElem n) : ℚ :=
  (∑ i in Finset.range e.nqp, e.JxW i) / (n : ℚ)

/-- The lumped-mass `local_jac`: the double loop writes only the
diagonal entries `(i_var*nshp+i, i_var*nshp+i) = vol * mat(i_var, i_var)`
(pair form `((j,i),(j,i))`), everything else stays zero. -/
def lumped_jac (e : SElem n) : Mat6n n := fun p q =>
  if p.1 = q.1 ∧ p.2 = q.2 then
    lumped_vol e * e.inertia (e.gcl (e.xyz 0)) e.time p.1 p.1
  else 0

/-- The material inertia matrix used at quadrature point `qp` of the
consistent-mass loop.  The source (line 164) calls
`_local_elem->global_coordinates_location(xyz[0], p)` inside the loop,
so the field function is evaluated at the FIRST quadrature point's
location for every `qp`; the parameter `qp` is deliberately unused to
mirror that. -/
def consistent_M (e : SElem n) (qp : ℕ) : Mat6 :=
  let _ := qp
  e.inertia (e.gcl (e.xyz 0)) e.time

/-- The shape-function operator at quadrature point `qp` of the element
rule. -/
def Bmat (e : SElem n) (qp : ℕ) : Matrix (Fin 6) (Dof n) ℚ :=
  FEMOp (fun i => e.phi i qp)

/-- One quadrature-point force contribution of the consistent-mass loop:
`JxW[qp] * Bᵀ * (M*B) * accel`. -/
def inertial_f_term (e : SElem n) (qp : ℕ) : Vec6n n :=
  e.JxW qp •
    (Bmat e qp)ᵀ.mulVec ((consistent_M e qp * Bmat e qp).mulVec e.local_accel)

/-- One quadrature-point jacobian contribution of the consistent-mass
loop: `JxW[qp] * Bᵀ * (M*B)`. -/
def inertial_jac_term (e : SElem n) (qp : ℕ) : Mat6n n :=
  e.JxW qp • ((Bmat e qp)ᵀ * (consistent_M e qp * Bmat e qp))

/-- The tail of `inertial_residual`: transform `local_f` and `local_jac`
to the global frame for 1D/2D elements (identity pass-through for 3D),
accumulate into `f` and — when requested — `jac_xddot`, and return
`request_jacobian`. -/
def finishInertial (e : SElem n) (request_jacobian : Bool) (f : Vec6n n)
    (jac_xddot : Mat6n n) (local_f : Vec6n n) (local_jac : Mat6n n)
    (log : List Pt) : InertialOut n :=
  if e.dim < 3 then
    { f := f + transform_vector_to_global_system e local_f,
      jac_xddot := if request_jacobian then
          jac_xddot + transform_matrix_to_global_system e local_jac
        else jac_xddot,
      ret := request_jacobian, log := log }
  else
    { f := f + local_f,
      jac_xddot := if request_jacobian then jac_xddot + local_jac
        else jac_xddot,
      ret := request_jacobian, log := log }

/-- `inertial_residual` (lines 105-208): lumped path when the property
card's diagonal-mass flag is set (single field-function evaluation at
the first quadrature point), otherwise the consistent-mass quadrature
loop; both are transformed to the global frame before accumulation. -/
def inertial_residual (e : SElem n) (request_jacobian : Bool) (f : Vec6n n)
    (jac_xddot : Mat6n n) : InertialOut n :=
  if e.if_diagonal_mass_matrix then
    let local_jac := lumped_jac e
    finishInertial e request_jacobian f jac_xddot
      (local_jac.mulVec e.local_accel) local_jac [e.gcl (e.xyz 0)]
  else
    let local_f := (List.range e.nqp).foldl
      (fun acc qp => acc + inertial_f_term e qp) 0
    let local_jac := if request_jacobian then
        (List.range e.nqp).foldl (fun acc qp => acc + inertial_jac_term e qp) 0
      else 0
    finishInertial e request_jacobian f jac_xddot local_f local_jac
      ((List.range e.nqp).map (fun _ => e.gcl (e.xyz 0)))

/-- `set_solution` (lines 63-74): with the sensitivity flag the call is
`libmesh_error()`; otherwise the global vector is transformed into the
local frame, cached in `_local_sol`, and handed to the base class. -/
def set_solution (e : SElem n) (vec : Vec6n n) (if_sens : Bool) :
    Except Unit (SElem n) :=
  if if_sens then .error ()
  else .ok { e with local_sol := transform_vector_to_local_system e vec,
                    sol := vec }

/-- `set_velocity` (lines 78-88): same contract for the velocity. -/
def set_velocity (e : SElem n) (vec : Vec6n n) (if_sens : Bool) :
    Except Unit (SElem n) :=
  if if_sens then .error ()
  else .ok { e with local_vel := transform_vector_to_local_system e vec,
                    vel := vec }

/-- `set_base_solution` (lines 91-101): same contract for the base
solution. -/
def set_base_solution (e : SElem n) (vec : Vec6n n) (if_sens : Bool) :
    Except Unit (SElem n) :=
  if if_sens then .error ()
  else .ok { e with local_base_sol := transform_vector_to_local_system e vec,
                    base_sol := vec }

/-- The side-dispatch supported tag set (lines 252-279). -/
def side_supported : BCType → Bool
  | BCType.SURFACE_PRESSURE => true
  | BCType.SMALL_DISTURBANCE_MOTION => true
  | BCType.DIRICHLET => true
  | _ => false

/-- The volume-dispatch supported tag set (lines 309-336). -/
def vol_supported : BCType → Bool
  | BCType.SURFACE_PRESSURE => true
  | BCType.TEMPERATURE => true
  | BCType.SMALL_DISTURBANCE_MOTION => true
  | _ => false

/-- The zero residual vector used as a concrete input. -/
def zeroF : Vec6n 1 := fun _ => 0

/-- The zero jacobian used as a concrete input. -/
def zeroJ : Mat6n 1 := fun _ _ => 0

/-- A surface-pressure boundary condition with zero field functions. -/
def bc0 : BoundaryCondition :=
  { bctype := BCType.SURFACE_PRESSURE, pressure := fun _ _ => 0,
    dpressure := fun _ _ => 0, dnormal := fun _ _ => fun _ => 0 }

/-- The base element with follower forces enabled. -/
def elemF : SElem 1 := { elem0 with follower_forces := true }

/-- A boundary condition with an out-of-set tag. -/
def bcOther : BoundaryCondition :=
  { bc0 with bctype := BCType.other 7 }

/-- A Dirichlet boundary condition. -/
def bcDir : BoundaryCondition :=
  { bc0 with bctype := BCType.DIRICHLET }

/-- The base element with one boundary id (5) on its single side and
subdomain id 5. -/
def elemB : SElem 1 := { elem0 with side_bc_ids := [[5]], subdomain_id := 5 }

/-- The concrete lumped element: two quadrature points of weight 2 and
3, one shape function, the inertia field returning the 6×6 identity
scaled by 5 everywhere. -/
def elemL : SElem 1 :=
  { elem0 with
    if_diagonal_mass_matrix := true
    nqp := 2
    JxW := fun qp => if qp = 0 then 2 else 3
    inertia := fun _ _ => Matrix.diagonal (fun _ => 5)
    local_accel := fun _ => 1 }

/-- Two distinct quadrature-point locations for the C2 evaluation. -/
def ptA : Pt := fun _ => 0

/-- The second, distinct quadrature-point location. -/
def ptB : Pt := fun i => if i.val = 0 then 1 else 0

/-- A consistent-mass element with two quadrature points sitting at two
DISTINCT locations `ptA ≠ ptB`, and a position-dependent inertia field. -/
def elemC2 : SElem 1 :=
  { elem0 with
    if_diagonal_mass_matrix := false
    nqp := 2
    JxW := fun _ => 1
    xyz := fun qp => if qp = 0 then ptA else ptB
    inertia := fun p _ => Matrix.diagonal (fun _ => p 0)
    local_accel := fun _ => 1 }

/-- The jacobian flag a successfully dispatched side handler hands back
to `calculate_jac` (every pressure handler returns
`request_jacobian && follower_forces`; DIRICHLET contributes nothing). -/
def side_flag (e : SElem n) (rj : Bool) (bc : BoundaryCondition) : Bool :=
  match bc.bctype with
  | BCType.SURFACE_PRESSURE => rj && e.follower_forces
  | BCType.SMALL_DISTURBANCE_MOTION => rj && e.follower_forces
  | _ => false

/-- The jacobian flag a successfully dispatched volume handler hands
back to `calculate_jac`. -/
def vol_flag (e : SElem n) (rj : Bool) (bc : BoundaryCondition) : Bool :=
  match bc.bctype with
  | BCType.SURFACE_PRESSURE => rj && e.follower_forces
  | BCType.TEMPERATURE => e.thermal_flag rj
  | BCType.SMALL_DISTURBANCE_MOTION => rj && e.follower_forces
  | _ => false

/-- A temperature boundary condition (volume dispatch only). -/
def bcTemp : BoundaryCondition := { bc0 with bctype := BCType.TEMPERATURE }

lemma T6_transpose (T : Mat3) : (T6 T)ᵀ = T6 Tᵀ := by
  funext j k
  by_cases hj : j.val < 3 <;> by_cases hk : k.val < 3 <;>
    simp [T6, Matrix.transpose_apply, hj, hk]

lemma T6_one : T6 (1 : Mat3) = 1 := by decide

lemma T6_mul (A B : Mat3) : T6 A * T6 B = T6 (A * B) := by
  funext j k
  rw [Matrix.mul_apply, Fin.sum_univ_six]
  fin_cases j <;> fin_cases k <;>
    simp +decide [T6, Matrix.mul_apply, Fin.sum_univ_three] <;> rfl

lemma blockT_transpose (n : ℕ) (T : Mat3) : (blockT n T)ᵀ = blockT n Tᵀ := by
  funext p q
  by_cases h : p.2 = q.2
  · simp [blockT, Matrix.transpose_apply, h, ← T6_transpose]
  · have h2 : ¬ q.2 = p.2 := fun hh => h hh.symm
    simp [blockT, Matrix.transpose_apply, h, h2]

lemma blockT_mul (n : ℕ) (A B : Mat3) :
    blockT n A * blockT n B = blockT n (A * B) := by
  funext p q
  rw [Matrix.mul_apply, Fintype.sum_prod_type]
  simp only [blockT, ite_mul, zero_mul, mul_ite, mul_zero]
  by_cases h : p.2 = q.2
  · simp only [h, Finset.sum_ite_eq, Finset.sum_ite_eq', Finset.mem_univ,
      if_true, if_pos rfl]
    rw [← T6_mul, Matrix.mul_apply]
  · simp [h, Finset.sum_ite_eq, Finset.sum_ite_eq']

lemma blockT_one (n : ℕ) : blockT n (1 : Mat3) = 1 := by
  funext p q
  by_cases h1 : p.1 = q.1 <;> by_cases h2 : p.2 = q.2 <;>
    simp [blockT, T6_one, Matrix.one_apply, Prod.ext_iff, h1, h2]

lemma rotZ_orth : rotZ * rotZᵀ = 1 := by
  ext i j
  fin_cases i <;> fin_cases j <;>
    simp +decide [rotZ, Matrix.mul_apply, Fin.sum_univ_three, Matrix.one_apply]

/-- C6: for every global vector of length `6 × (node count)` and every
element whose local transformation matrix `T` is orthonormal, the round
trip `transform_vector_to_global_system ∘ transform_vector_to_local_system`
is the identity (exactly, in the rational model); and when `T` is the
identity matrix — the spec's description of every 3D element — both
transformations return the vector unchanged. -/
theorem round_trip_transform (n : ℕ) (e : SElem n) (v : Vec6n n) :
    (e.Tmat * e.Tmatᵀ = 1 →
      transform_vector_to_global_system e (transform_vector_to_local_system e v) = v) ∧
    (e.Tmat = 1 →
      transform_vector_to_local_system e v = v ∧
      transform_vector_to_global_system e v = v) := by
  constructor
  · intro h
    rw [transform_vector_to_global_system, transform_vector_to_local_system,
      Matrix.mulVec_mulVec, blockT_transpose, blockT_mul, h, blockT_one,
      Matrix.one_mulVec]
  · intro h
    rw [transform_vector_to_local_system, transform_vector_to_global_system, h,
      blockT_one]
    constructor
    · rw [Matrix.transpose_one, Matrix.one_mulVec]
    · rw [Matrix.one_mulVec]

/-- Witness for C6: the round-trip identity evaluated on a concrete
element carrying a 90° rotation and a concrete vector. -/
theorem round_trip_transform_witness :
    (elemRot.Tmat * elemRot.Tmatᵀ = 1 ∧
      transform_vector_to_global_system elemRot
        (transform_vector_to_local_system elemRot vW) = vW) ∧
    (elem0.Tmat = 1 ∧
      transform_vector_to_local_system elem0 vW = vW ∧
      transform_vector_to_global_system elem0 vW = vW) :=
  ⟨⟨rotZ_orth, (round_trip_transform 1 elemRot vW).1 rotZ_orth⟩,
   ⟨rfl, (round_trip_transform 1 elem0 vW).2 rfl⟩⟩

lemma foldl_add_eq_sum {M : Type} [AddCommMonoid M] (g : ℕ → M) :
    ∀ (l : List ℕ) (a : M),
      l.foldl (fun acc x => acc + g x) a = a + (l.map g).sum
  | [], a => by simp
  | x :: t, a => by
    rw [List.foldl_cons, foldl_add_eq_sum g t (a + g x), List.map_cons,
      List.sum_cons, add_assoc]

lemma list_range_map_sum {M : Type} [AddCommMonoid M] (g : ℕ → M) (k : ℕ) :
    ((List.range k).map g).sum = ∑ i in Finset.range k, g i := by
  induction k with
  | zero => simp
  | succ m ih =>
    rw [List.range_succ, List.map_append, List.sum_append,
      Finset.sum_range_succ, ih]
    simp

lemma side_dispatch_one_unsupported (e : SElem n) (rj : Bool) (sd : ℕ)
    (bc : BoundaryCondition) (s : DState n)
    (h : side_supported bc.bctype = false) :
    side_dispatch_one e rj sd bc s = .error () := by
  cases hb : bc.bctype <;> simp_all [side_supported, side_dispatch_one]

lemma vol_dispatch_one_unsupported (e : SElem n) (rj : Bool)
    (bc : BoundaryCondition) (s : DState n)
    (h : vol_supported bc.bctype = false) :
    volume_dispatch_one e rj bc s = .error () := by
  cases hb : bc.bctype <;> simp_all [vol_supported, volume_dispatch_one]

lemma runSideDispatch_error (e : SElem n) (rj : Bool) :
    ∀ (l : List (ℕ × BoundaryCondition)) (s : DState n)
      (p : ℕ × BoundaryCondition), p ∈ l →
      side_supported p.2.bctype = false →
      runSideDispatch e rj l s = .error () := by
  intro l
  induction l with
  | nil => intro s p hp; simp at hp
  | cons q t ih =>
    intro s p hp hs
    rcases List.mem_cons.mp hp with h1 | h1
    · subst h1
      simp only [runSideDispatch]
      rw [side_dispatch_one_unsupported e rj p.1 p.2 s hs]
    · simp only [runSideDispatch]
      cases hd : side_dispatch_one e rj q.1 q.2 s with
      | error u => rfl
      | ok s1 => exact ih s1 p h1 hs

lemma runVolDispatch_error (e : SElem n) (rj : Bool) :
    ∀ (l : List BoundaryCondition) (s : DState n) (bc : BoundaryCondition),
      bc ∈ l → vol_supported bc.bctype = false →
      runVolDispatch e rj l s = .error () := by
  intro l
  induction l with
  | nil => intro s bc hp; simp at hp
  | cons q t ih =>
    intro s bc hp hs
    rcases List.mem_cons.mp hp with h1 | h1
    · subst h1
      simp only [runVolDispatch]
      rw [vol_dispatch_one_unsupported e rj bc s hs]
    · simp only [runVolDispatch]
      cases hd : volume_dispatch_one e rj q s with
      | error u => rfl
      | ok s1 => exact ih s1 bc h1 hs

/-- C10: for every input vector, calling `set_solution`, `set_velocity`
or `set_base_solution` with the sensitivity flag raises the fatal error
unconditionally; with the flag off the vector is transformed into the
local frame and cached in the corresponding local buffer. -/
theorem set_state_sensitivity_contract (n : ℕ) (e : SElem n) (vec : Vec6n n) :
    set_solution e vec true = .error () ∧
    set_velocity e vec true = .error () ∧
    set_base_solution e vec true = .error () ∧
    (set_solution e vec false).map (fun r => r.local_sol)
      = .ok (transform_vector_to_local_system e vec) ∧
    (set_velocity e vec false).map (fun r => r.local_vel)
      = .ok (transform_vector_to_local_system e vec) ∧
    (set_base_solution e vec false).map (fun r => r.local_base_sol)
      = .ok (transform_vector_to_local_system e vec) :=
  ⟨rfl, rfl, rfl, rfl, rfl, rfl⟩

/-- C5: every surface-pressure residual routine (steady or
small-disturbance, side or whole-element) is a fatal error whenever a
Jacobian is requested while follower forces are active (the source
asserts `!follower_forces` before any computation). -/
theorem follower_jacobian_fatal (n : ℕ) (e : SElem n)
    (request_jacobian : Bool) (f : Vec6n n) (jac : Mat6n n) (side : ℕ)
    (bc : BoundaryCondition) (hf : e.follower_forces = true)
    (hrj : request_jacobian = true) :
    surface_pressure_residual_side e request_jacobian f jac side bc
      = .error () ∧
    surface_pressure_residual_vol e request_jacobian f jac bc = .error () ∧
    small_disturbance_surface_pressure_residual_side e request_jacobian
      f jac side bc = .error () ∧
    small_disturbance_surface_pressure_residual_vol e request_jacobian
      f jac bc = .error () := by
  refine ⟨?_, ?_, ?_, ?_⟩ <;>
    by_cases h3 : 3 ≤ e.dim <;>
      simp [surface_pressure_residual_side, surface_pressure_residual_vol,
        small_disturbance_surface_pressure_residual_side,
        small_disturbance_surface_pressure_residual_vol, hf, h3]

/-- Witness for C5 on a concrete follower-force element. -/
theorem follower_jacobian_fatal_witness :
    elemF.follower_forces = true ∧
    (surface_pressure_residual_side elemF true zeroF zeroJ 0 bc0 = .error () ∧
     surface_pressure_residual_vol elemF true zeroF zeroJ bc0 = .error () ∧
     small_disturbance_surface_pressure_residual_side elemF true zeroF zeroJ
       0 bc0 = .error () ∧
     small_disturbance_surface_pressure_residual_vol elemF true zeroF zeroJ
       bc0 = .error ()) :=
  ⟨rfl, follower_jacobian_fatal 1 elemF true zeroF zeroJ 0 bc0 rfl rfl⟩

/-- C3: boundary-load dispatch never skips an unrecognized tag: if any
matched condition carries a type outside the supported set of the
respective dispatcher (side: SURFACE_PRESSURE, SMALL_DISTURBANCE_MOTION,
DIRICHLET; volume: SURFACE_PRESSURE, TEMPERATURE,
SMALL_DISTURBANCE_MOTION), the whole dispatch is the fatal
`libmesh_error()`. -/
theorem unsupported_tag_fatal (n : ℕ) (e : SElem n) (rj : Bool)
    (f : Vec6n n) (jac : Mat6n n) (bcmap : List (ℕ × BoundaryCondition)) :
    (∀ p, p ∈ sideMatched e bcmap → side_supported p.2.bctype = false →
      side_external_residual e rj f jac bcmap = .error ()) ∧
    (∀ bc, bc ∈ equalRange bcmap e.subdomain_id →
      vol_supported bc.bctype = false →
      volume_external_residual e rj f jac bcmap = .error ()) := by
  constructor
  · intro p hp hs
    rw [side_external_residual,
      runSideDispatch_error e rj (sideMatched e bcmap) (f, jac, false) p hp hs]
    rfl
  · intro bc hb hs
    rw [volume_external_residual,
      runVolDispatch_error e rj (equalRange bcmap e.subdomain_id)
        (f, jac, false) bc hb hs]
    rfl

/-- Witness for C3: dispatching a tag outside the supported set on a
concrete element is fatal, in both dispatchers. -/
theorem unsupported_tag_fatal_witness :
    ((0, bcOther) ∈ sideMatched elemB [(5, bcOther)] ∧
      side_supported bcOther.bctype = false ∧
      side_external_residual elemB true zeroF zeroJ [(5, bcOther)]
        = .error ()) ∧
    (bcOther ∈ equalRange [(5, bcOther)] elemB.subdomain_id ∧
      vol_supported bcOther.bctype = false ∧
      volume_external_residual elemB true zeroF zeroJ [(5, bcOther)]
        = .error ()) :=
  ⟨⟨List.Mem.head _, rfl,
    (unsupported_tag_fatal 1 elemB true zeroF zeroJ [(5, bcOther)]).1
      (0, bcOther) (List.Mem.head _) rfl⟩,
   ⟨List.Mem.head _, rfl,
    (unsupported_tag_fatal 1 elemB true zeroF zeroJ [(5, bcOther)]).2
      bcOther (List.Mem.head _) rfl⟩⟩

lemma runSideDispatch_dirichlet (e : SElem n) (rj : Bool) :
    ∀ (l : List (ℕ × BoundaryCondition)) (s : DState n),
      (∀ p, p ∈ l → p.2.bctype = BCType.DIRICHLET) →
      runSideDispatch e rj l s = .ok s := by
  intro l
  induction l with
  | nil => intro s _; rfl
  | cons q t ih =>
    intro s hall
    have hq : q.2.bctype = BCType.DIRICHLET := hall q (List.Mem.head _)
    simp only [runSideDispatch, side_dispatch_one, hq]
    exact ih s (fun p hp => hall p (List.Mem.tail _ hp))

/-- Counterexample for C4: in subdomain-based (volume) dispatch a
matched DIRICHLET condition is NOT a no-op — it falls into the
`default:` branch of the switch and is the fatal `libmesh_error()`.
Concrete input: the one-side element with subdomain id 5 and a map
carrying a single DIRICHLET condition under key 5. -/
theorem dirichlet_dispatch_counterexample :
    volume_external_residual elemB true zeroF zeroJ [(5, bcDir)]
      = .error () := rfl

/-- C4 (amended): a matched DIRICHLET condition is a no-op — `f` and
`jac` untouched, no error — in SIDE-based dispatch (per condition, and
hence for a whole dispatch whose matches are all DIRICHLET, which also
returns `false`); in subdomain-based dispatch a matched DIRICHLET
condition instead raises the fatal unsupported-tag error. -/
theorem dirichlet_dispatch (n : ℕ) (e : SElem n) (rj : Bool) (sd : ℕ)
    (bc : BoundaryCondition) (s : DState n)
    (hb : bc.bctype = BCType.DIRICHLET) :
    side_dispatch_one e rj sd bc s = .ok s ∧
    volume_dispatch_one e rj bc s = .error () ∧
    (∀ (f : Vec6n n) (jac : Mat6n n) (bcmap : List (ℕ × BoundaryCondition)),
      (∀ p, p ∈ sideMatched e bcmap → p.2.bctype = BCType.DIRICHLET) →
      side_external_residual e rj f jac bcmap = .ok (f, jac, false)) := by
  refine ⟨?_, ?_, ?_⟩
  · simp only [side_dispatch_one, hb]
  · simp only [volume_dispatch_one, hb]
  · intro f jac bcmap hall
    rw [side_external_residual,
      runSideDispatch_dirichlet e rj (sideMatched e bcmap) (f, jac, false) hall]
    simp [Except.map, Bool.and_false]

/-- Witness for C4 (amended): the side dispatcher on a concrete element
with one matched DIRICHLET condition leaves the state untouched and
raises no error. -/
theorem dirichlet_dispatch_witness :
    bcDir.bctype = BCType.DIRICHLET ∧
    side_dispatch_one elemB true 0 bcDir (zeroF, zeroJ, false)
      = .ok (zeroF, zeroJ, false) ∧
    side_external_residual elemB true zeroF zeroJ [(5, bcDir)]
      = .ok (zeroF, zeroJ, false) :=
  ⟨rfl,
   (dirichlet_dispatch 1 elemB true 0 bcDir (zeroF, zeroJ, false) rfl).1,
   (dirichlet_dispatch 1 elemB true 0 bcDir (zeroF, zeroJ, false) rfl).2.2
     zeroF zeroJ [(5, bcDir)]
     (fun p hp => by
       simp only [sideMatched, equalRange, elemB, elem0] at hp
       simp at hp
       subst hp
       rfl)⟩

lemma spr_term_zero (e : SElem n) (sfe : SideFE n) (press_fn : Pt → ℚ → ℚ)
    (qp : ℕ) (hz : ∀ p t, press_fn p t = 0) :
    spr_term e sfe press_fn qp = 0 := by
  have hforce :
      (fun i => if h : (i : Fin 6).val < 3 then
          press_fn (e.gcl (sfe.qpoint qp)) e.time * sfe.normals qp ⟨i.val, h⟩
        else 0) = (fun _ => (0 : ℚ)) := by
    funext i
    split <;> simp [hz]
  simp only [spr_term, hforce]
  have : (fun _ => (0 : ℚ)) = (0 : Fin 6 → ℚ) := rfl
  rw [this, Matrix.mulVec_zero, smul_zero]

lemma spr_local_f_zero (e : SElem n) (sfe : SideFE n)
    (press_fn : Pt → ℚ → ℚ) (hz : ∀ p t, press_fn p t = 0) :
    spr_local_f e sfe press_fn = 0 := by
  rw [spr_local_f,
    foldl_add_eq_sum (fun qp => spr_term e sfe press_fn qp)
      (List.range sfe.nqp) 0, zero_add]
  apply List.sum_eq_zero
  intro x hx
  rcases List.mem_map.mp hx with ⟨qp, _, rfl⟩
  exact spr_term_zero e sfe press_fn qp hz

/-- C9: a surface-pressure residual (side or whole-element variant)
computed with an identically-zero pressure field leaves the residual
vector unchanged whenever it returns at all. -/
theorem zero_pressure_residual (n : ℕ) (e : SElem n) (rj : Bool)
    (f : Vec6n n) (jac : Mat6n n) (sd : ℕ) (bc : BoundaryCondition)
    (hz : ∀ p t, bc.pressure p t = 0) :
    (∀ r, surface_pressure_residual_side e rj f jac sd bc = .ok r →
      r.1 = f) ∧
    (∀ r, surface_pressure_residual_vol e rj f jac bc = .ok r → r.1 = f) := by
  have hside := spr_local_f_zero e (e.sideFE sd) bc.pressure hz
  have hvol := spr_local_f_zero e (volFE e) bc.pressure hz
  constructor
  · intro r h
    by_cases hf : e.follower_forces = true
    · simp [surface_pressure_residual_side, hf] at h
    · simp only [surface_pressure_residual_side, hf, if_false,
        Bool.false_eq_true] at h
      rw [hside] at h
      simp only [transform_vector_to_global_system, Matrix.mulVec_zero,
        add_zero, Except.ok.injEq] at h
      rw [← h]
      split <;> rfl
  · intro r h
    by_cases h3 : 3 ≤ e.dim
    · simp [surface_pressure_residual_vol, h3] at h
    · by_cases hf : e.follower_forces = true
      · simp [surface_pressure_residual_vol, h3, hf] at h
      · simp only [surface_pressure_residual_vol, h3, hf, if_false,
          Bool.false_eq_true] at h
        rw [hvol] at h
        simp only [transform_vector_to_global_system, Matrix.mulVec_zero,
          add_zero, Except.ok.injEq] at h
        rw [← h]

/-- Witness for C9: applying the theorem on a concrete element and the
zero-pressure condition evaluates the residual contribution away. -/
theorem zero_pressure_residual_witness :
    (∀ p t, bc0.pressure p t = 0) ∧
    zeroF + transform_vector_to_global_system elem0
        (spr_local_f elem0 (elem0.sideFE 0) bc0.pressure) = zeroF ∧
    zeroF + transform_vector_to_global_system elem0
        (spr_local_f elem0 (volFE elem0) bc0.pressure) = zeroF :=
  ⟨fun _ _ => rfl,
   (zero_pressure_residual 1 elem0 true zeroF zeroJ 0 bc0 (fun _ _ => rfl)).1
     (zeroF + transform_vector_to_global_system elem0
        (spr_local_f elem0 (elem0.sideFE 0) bc0.pressure), zeroJ,
      true && elem0.follower_forces) rfl,
   (zero_pressure_residual 1 elem0 true zeroF zeroJ 0 bc0 (fun _ _ => rfl)).2
     (zeroF + transform_vector_to_global_system elem0
        (spr_local_f elem0 (volFE elem0) bc0.pressure), zeroJ,
      true && elem0.follower_forces) rfl⟩

/-- C7: in the small-disturbance surface-pressure residual the
accumulated local force is exactly the quadrature sum of
`JxW[qp] · Bᵀ · force` with the componentwise force
`force(i) = press * dnormal(i) + dpress * normal(i)` — first conjunct,
for the single generic routine body over ANY numeric value type `R`;
the second and third conjuncts state the same identity for the
real-valued and the complex-valued instantiations, which are the very
same body `sd_local_f` applied at `R = ℚ` and `R = CplxQ`. -/
theorem small_disturbance_force_formula :
    (∀ (R : Type) [inst : CommRing R] (ι : ℚ →+* R) (n : ℕ) (e : SElem n)
      (sfe : SideFE n) (pfn : Pt → ℚ → ℚ) (dpfn : Pt → ℚ → R)
      (dnfn : Pt → ℚ → Fin 3 → R),
      sd_local_f ι e sfe pfn dpfn dnfn =
        ∑ qp in Finset.range sfe.nqp,
          ι (sfe.JxW qp) •
            ((FEMOp (fun i => sfe.phi i qp)).map ι)ᵀ.mulVec
              (fun i => if h : (i : Fin 6).val < 3 then
                  ι (pfn (e.gcl (sfe.qpoint qp)) e.time) *
                      dnfn (e.gcl (sfe.qpoint qp)) e.time ⟨i.val, h⟩ +
                    dpfn (e.gcl (sfe.qpoint qp)) e.time *
                      ι (sfe.normals qp ⟨i.val, h⟩)
                else 0)) ∧
    (∀ (n : ℕ) (e : SElem n) (sfe : SideFE n) (pfn : Pt → ℚ → ℚ)
      (dpfn : Pt → ℚ → ℚ) (dnfn : Pt → ℚ → Fin 3 → ℚ),
      sd_local_f_real e sfe pfn dpfn dnfn =
        ∑ qp in Finset.range sfe.nqp,
          sfe.JxW qp •
            (FEMOp (fun i => sfe.phi i qp))ᵀ.mulVec
              (fun i => if h : (i : Fin 6).val < 3 then
                  pfn (e.gcl (sfe.qpoint qp)) e.time *
                      dnfn (e.gcl (sfe.qpoint qp)) e.time ⟨i.val, h⟩ +
                    dpfn (e.gcl (sfe.qpoint qp)) e.time *
                      sfe.normals qp ⟨i.val, h⟩
                else 0)) ∧
    (∀ (n : ℕ) (e : SElem n) (sfe : SideFE n) (pfn : Pt → ℚ → ℚ)
      (dpfn : Pt → ℚ → CplxQ) (dnfn : Pt → ℚ → Fin 3 → CplxQ),
      sd_local_f_cplx e sfe pfn dpfn dnfn =
        ∑ qp in Finset.range sfe.nqp,
          CplxQ.ofRat (sfe.JxW qp) •
            ((FEMOp (fun i => sfe.phi i qp)).map CplxQ.ofRat)ᵀ.mulVec
              (fun i => if h : (i : Fin 6).val < 3 then
                  CplxQ.ofRat (pfn (e.gcl (sfe.qpoint qp)) e.time) *
                      dnfn (e.gcl (sfe.qpoint qp)) e.time ⟨i.val, h⟩ +
                    dpfn (e.gcl (sfe.qpoint qp)) e.time *
                      CplxQ.ofRat (sfe.normals qp ⟨i.val, h⟩)
                else 0)) := by
  have main : ∀ (R : Type) [inst : CommRing R] (ι : ℚ →+* R) (n : ℕ)
      (e : SElem n) (sfe : SideFE n) (pfn : Pt → ℚ → ℚ)
      (dpfn : Pt → ℚ → R) (dnfn : Pt → ℚ → Fin 3 → R),
      sd_local_f ι e sfe pfn dpfn dnfn =
        ∑ qp in Finset.range sfe.nqp,
          ι (sfe.JxW qp) •
            ((FEMOp (fun i => sfe.phi i qp)).map ι)ᵀ.mulVec
              (fun i => if h : (i : Fin 6).val < 3 then
                  ι (pfn (e.gcl (sfe.qpoint qp)) e.time) *
                      dnfn (e.gcl (sfe.qpoint qp)) e.time ⟨i.val, h⟩ +
                    dpfn (e.gcl (sfe.qpoint qp)) e.time *
                      ι (sfe.normals qp ⟨i.val, h⟩)
                else 0) := by
    intro R inst ι n e sfe pfn dpfn dnfn
    rw [sd_local_f,
      foldl_add_eq_sum (fun qp => sd_term ι e sfe pfn dpfn dnfn qp)
        (List.range sfe.nqp) 0, zero_add, list_range_map_sum]
    exact Finset.sum_congr rfl (fun qp _ => rfl)
  refine ⟨main, fun n e sfe pfn dpfn dnfn => ?_, fun n e sfe pfn dpfn dnfn => ?_⟩
  · rw [sd_local_f_real, main ℚ (RingHom.id ℚ) n e sfe pfn dpfn dnfn]
    have hco : ((RingHom.id ℚ) : ℚ → ℚ) = id := rfl
    simp [hco, Matrix.map_id, RingHom.id_apply]
  · rw [sd_local_f_cplx]
    exact main CplxQ CplxQ.ofRat n e sfe pfn dpfn dnfn

/-- C8: on the lumped-mass path the inertia field function is evaluated
exactly once, at the (mapped) first quadrature point; the local mass
matrix is the diagonal matrix whose entry for DOF `(j, i)` is
`(element volume / node count) * inertia(j, j)`; and the residual
accumulated by the routine is that diagonal matrix times the local
acceleration (transformed to the global frame for 1D/2D elements). -/
theorem lumped_mass_contract (n : ℕ) (e : SElem n) (rj : Bool)
    (f : Vec6n n) (jacx : Mat6n n) (hd : e.if_diagonal_mass_matrix = true) :
    (inertial_residual e rj f jacx).log = [e.gcl (e.xyz 0)] ∧
    lumped_jac e = Matrix.diagonal
      (fun p => lumped_vol e * e.inertia (e.gcl (e.xyz 0)) e.time p.1 p.1) ∧
    (inertial_residual e rj f jacx).f = f +
      (if e.dim < 3 then
        transform_vector_to_global_system e
          ((Matrix.diagonal (fun p : Dof n =>
            lumped_vol e * e.inertia (e.gcl (e.xyz 0)) e.time p.1 p.1)).mulVec
            e.local_accel)
      else
        (Matrix.diagonal (fun p : Dof n =>
          lumped_vol e * e.inertia (e.gcl (e.xyz 0)) e.time p.1 p.1)).mulVec
          e.local_accel) := by
  have hdiag : lumped_jac e = Matrix.diagonal
      (fun p => lumped_vol e * e.inertia (e.gcl (e.xyz 0)) e.time p.1 p.1) := by
    funext p q
    by_cases h : p = q
    · subst h
      simp [lumped_jac, Matrix.diagonal_apply_eq]
    · have h2 : ¬ (p.1 = q.1 ∧ p.2 = q.2) := by
        intro hc
        exact h (Prod.ext hc.1 hc.2)
      simp [lumped_jac, Matrix.diagonal_apply_ne _ h, h2]
  refine ⟨?_, hdiag, ?_⟩
  · by_cases h3 : e.dim < 3 <;>
      simp [inertial_residual, hd, finishInertial, h3]
  · rw [inertial_residual, if_pos hd, ← hdiag, finishInertial]
    by_cases h3 : e.dim < 3 <;> simp [h3]

/-- Witness for C8 on the concrete lumped element. -/
theorem lumped_mass_contract_witness :
    elemL.if_diagonal_mass_matrix = true ∧
    (inertial_residual elemL true zeroF zeroJ).log = [elemL.gcl (elemL.xyz 0)] ∧
    lumped_jac elemL = Matrix.diagonal
      (fun p => lumped_vol elemL *
        elemL.inertia (elemL.gcl (elemL.xyz 0)) elemL.time p.1 p.1) :=
  ⟨rfl,
   (lumped_mass_contract 1 elemL true zeroF zeroJ rfl).1,
   (lumped_mass_contract 1 elemL true zeroF zeroJ rfl).2.1⟩

/-- C2 evaluation (code bug): on the consistent-mass path the source
(line 164) calls `global_coordinates_location(xyz[0], p)` INSIDE the
quadrature loop, so the inertia field function is evaluated at the
first quadrature point's location for every `qp`.  On the concrete
element whose two quadrature points sit at distinct locations, the
evaluation log is `[ptA, ptA]` — not `[ptA, ptB]` as the claim's
"evaluated at that quadrature point's own physical location" requires. -/
theorem consistent_mass_eval_location :
    elemC2.if_diagonal_mass_matrix = false ∧
    elemC2.nqp = 2 ∧
    (inertial_residual elemC2 false zeroF zeroJ).log
      = [elemC2.gcl ptA, elemC2.gcl ptA] ∧
    elemC2.gcl (elemC2.xyz 1) = elemC2.gcl ptB ∧
    elemC2.gcl ptA ≠ elemC2.gcl ptB := by
  refine ⟨rfl, rfl, ?_, rfl, ?_⟩
  · by_cases h3 : elemC2.dim < 3 <;>
      simp [inertial_residual, finishInertial, elemC2, elem0, List.range_succ]
  · intro hc
    have : (1 : ℚ) = 0 := by
      have h0 := congrFun hc ⟨0, by omega⟩
      simpa [elemC2, elem0, ptA, ptB] using h0.symm
    norm_num at this

lemma spr_side_flag (e : SElem n) (rj : Bool) (f : Vec6n n) (jac : Mat6n n)
    (sd : ℕ) (bc : BoundaryCondition) (r : DState n)
    (h : surface_pressure_residual_side e rj f jac sd bc = .ok r) :
    r.2.2 = (rj && e.follower_forces) := by
  by_cases hf : e.follower_forces = true
  · simp [surface_pressure_residual_side, hf] at h
  · simp only [surface_pressure_residual_side, hf, if_false,
      Bool.false_eq_true, Except.ok.injEq] at h
    rw [← h]
    have hf2 : e.follower_forces = false := by simpa using hf
    simp [hf2]

lemma sd_side_flag (e : SElem n) (rj : Bool) (f : Vec6n n) (jac : Mat6n n)
    (sd : ℕ) (bc : BoundaryCondition) (r : DState n)
    (h : small_disturbance_surface_pressure_residual_side e rj f jac sd bc
      = .ok r) :
    r.2.2 = (rj && e.follower_forces) := by
  by_cases hf : e.follower_forces = true
  · simp [small_disturbance_surface_pressure_residual_side, hf] at h
  · by_cases hb : bc.bctype = BCType.SMALL_DISTURBANCE_MOTION
    · simp only [small_disturbance_surface_pressure_residual_side, hf, hb,
        if_false, if_true, Bool.false_eq_true, Except.ok.injEq] at h
      rw [← h]
      have hf2 : e.follower_forces = false := by simpa using hf
      simp [hf2]
    · simp [small_disturbance_surface_pressure_residual_side, hf, hb] at h

lemma spr_vol_flag (e : SElem n) (rj : Bool) (f : Vec6n n) (jac : Mat6n n)
    (bc : BoundaryCondition) (r : DState n)
    (h : surface_pressure_residual_vol e rj f jac bc = .ok r) :
    r.2.2 = (rj && e.follower_forces) := by
  by_cases h3 : 3 ≤ e.dim
  · simp [surface_pressure_residual_vol, h3] at h
  · by_cases hf : e.follower_forces = true
    · simp [surface_pressure_residual_vol, h3, hf] at h
    · simp only [surface_pressure_residual_vol, h3, hf, if_false,
        Bool.false_eq_true, Except.ok.injEq] at h
      rw [← h]
      have hf2 : e.follower_forces = false := by simpa using hf
      simp [hf2]

lemma sd_vol_flag (e : SElem n) (rj : Bool) (f : Vec6n n) (jac : Mat6n n)
    (bc : BoundaryCondition) (r : DState n)
    (h : small_disturbance_surface_pressure_residual_vol e rj f jac bc
      = .ok r) :
    r.2.2 = (rj && e.follower_forces) := by
  by_cases h3 : 3 ≤ e.dim
  · simp [small_disturbance_surface_pressure_residual_vol, h3] at h
  · by_cases hf : e.follower_forces = true
    · simp [small_disturbance_surface_pressure_residual_vol, h3, hf] at h
    · by_cases hb : bc.bctype = BCType.SMALL_DISTURBANCE_MOTION
      · simp only [small_disturbance_surface_pressure_residual_vol, h3, hf, hb,
          if_false, if_true, Bool.false_eq_true, Except.ok.injEq] at h
        rw [← h]
        have hf2 : e.follower_forces = false := by simpa using hf
        simp [hf2]
      · simp [small_disturbance_surface_pressure_residual_vol, h3, hf, hb] at h

lemma side_dispatch_one_flag (e : SElem n) (rj : Bool) (sd : ℕ)
    (bc : BoundaryCondition) (s s1 : DState n)
    (h : side_dispatch_one e rj sd bc s = .ok s1) :
    s1.2.2 = (s.2.2 || side_flag e rj bc) := by
  cases hb : bc.bctype with
  | SURFACE_PRESSURE =>
    simp only [side_dispatch_one, hb] at h
    by_cases hc : s.2.2 = true
    · rw [if_pos hc] at h
      simp only [Except.ok.injEq] at h
      rw [← h, hc, Bool.true_or]
    · rw [if_neg hc] at h
      have hc2 : s.2.2 = false := by simpa using hc
      rw [spr_side_flag e rj s.1 s.2.1 sd bc s1 h, hc2, Bool.false_or,
        side_flag, hb]
  | SMALL_DISTURBANCE_MOTION =>
    simp only [side_dispatch_one, hb] at h
    by_cases hc : s.2.2 = true
    · rw [if_pos hc] at h
      simp only [Except.ok.injEq] at h
      rw [← h, hc, Bool.true_or]
    · rw [if_neg hc] at h
      have hc2 : s.2.2 = false := by simpa using hc
      rw [sd_side_flag e rj s.1 s.2.1 sd bc s1 h, hc2, Bool.false_or,
        side_flag, hb]
  | DIRICHLET =>
    simp only [side_dispatch_one, hb, Except.ok.injEq] at h
    rw [← h, side_flag, hb, Bool.or_false]
  | TEMPERATURE => simp [side_dispatch_one, hb] at h
  | other k => simp [side_dispatch_one, hb] at h

lemma volume_dispatch_one_flag (e : SElem n) (rj : Bool)
    (bc : BoundaryCondition) (s s1 : DState n)
    (h : volume_dispatch_one e rj bc s = .ok s1) :
    s1.2.2 = (s.2.2 || vol_flag e rj bc) := by
  cases hb : bc.bctype with
  | SURFACE_PRESSURE =>
    simp only [volume_dispatch_one, hb] at h
    by_cases hc : s.2.2 = true
    · rw [if_pos hc] at h
      simp only [Except.ok.injEq] at h
      rw [← h, hc, Bool.true_or]
    · rw [if_neg hc] at h
      have hc2 : s.2.2 = false := by simpa using hc
      rw [spr_vol_flag e rj s.1 s.2.1 bc s1 h, hc2, Bool.false_or,
        vol_flag, hb]
  | TEMPERATURE =>
    simp only [volume_dispatch_one, hb] at h
    by_cases hc : s.2.2 = true
    · rw [if_pos hc] at h
      simp only [Except.ok.injEq] at h
      rw [← h, hc, Bool.true_or]
    · rw [if_neg hc] at h
      simp only [Except.ok.injEq] at h
      have hc2 : s.2.2 = false := by simpa using hc
      rw [← h, hc2, Bool.false_or, vol_flag, hb]
  | SMALL_DISTURBANCE_MOTION =>
    simp only [volume_dispatch_one, hb] at h
    by_cases hc : s.2.2 = true
    · rw [if_pos hc] at h
      simp only [Except.ok.injEq] at h
      rw [← h, hc, Bool.true_or]
    · rw [if_neg hc] at h
      have hc2 : s.2.2 = false := by simpa using hc
      rw [sd_vol_flag e rj s.1 s.2.1 bc s1 h, hc2, Bool.false_or,
        vol_flag, hb]
  | DIRICHLET => simp [volume_dispatch_one, hb] at h
  | other k => simp [volume_dispatch_one, hb] at h

lemma runSideDispatch_flag (e : SElem n) (rj : Bool) :
    ∀ (l : List (ℕ × BoundaryCondition)) (s r : DState n),
      runSideDispatch e rj l s = .ok r →
      r.2.2 = (s.2.2 || l.any (fun p => side_flag e rj p.2)) := by
  intro l
  induction l with
  | nil =>
    intro s r h
    simp only [runSideDispatch, Except.ok.injEq] at h
    rw [← h]
    simp
  | cons q t ih =>
    intro s r h
    simp only [runSideDispatch] at h
    cases hd : side_dispatch_one e rj q.1 q.2 s with
    | error u => rw [hd] at h; exact absurd h (by simp)
    | ok s1 =>
      rw [hd] at h
      rw [ih s1 r h, side_dispatch_one_flag e rj q.1 q.2 s s1 hd,
        List.any_cons, Bool.or_assoc]

lemma runVolDispatch_flag (e : SElem n) (rj : Bool) :
    ∀ (l : List BoundaryCondition) (s r : DState n),
      runVolDispatch e rj l s = .ok r →
      r.2.2 = (s.2.2 || l.any (fun bc => vol_flag e rj bc)) := by
  intro l
  induction l with
  | nil =>
    intro s r h
    simp only [runVolDispatch, Except.ok.injEq] at h
    rw [← h]
    simp
  | cons q t ih =>
    intro s r h
    simp only [runVolDispatch] at h
    cases hd : volume_dispatch_one e rj q s with
    | error u => rw [hd] at h; exact absurd h (by simp)
    | ok s1 =>
      rw [hd] at h
      rw [ih s1 r h, volume_dispatch_one_flag e rj q s s1 hd,
        List.any_cons, Bool.or_assoc]

/-- Counterexample for C1: the claim predicts the returned boolean is
`calculate_jac OR request_jacobian`.  On this concrete dispatch a
surface-pressure handler is dispatched (computing no Jacobian, flag
`false`) with `request_jacobian = true`, so the claim predicts
`false || true = true`; the code returns
`request_jacobian && calculate_jac = false`. -/
theorem dispatch_return_flag_counterexample :
    (side_external_residual elemB true zeroF zeroJ [(5, bc0)]).map
      (fun r => r.2.2) = .ok false ∧
    (false || true) = true :=
  ⟨rfl, rfl⟩

/-- C1 (amended): each external-residual dispatcher returns the flag
'some dispatched handler computed a Jacobian contribution' ANDed (not
ORed) with the caller's `request_jacobian` — the source's
`return (request_jacobian && calculate_jac)`. -/
theorem dispatch_return_flag (n : ℕ) (e : SElem n) (rj : Bool)
    (f : Vec6n n) (jac : Mat6n n) (bcmap : List (ℕ × BoundaryCondition)) :
    (∀ r, side_external_residual e rj f jac bcmap = .ok r →
      r.2.2 = (rj && (sideMatched e bcmap).any
        (fun p => side_flag e rj p.2))) ∧
    (∀ r, volume_external_residual e rj f jac bcmap = .ok r →
      r.2.2 = (rj && (equalRange bcmap e.subdomain_id).any
        (fun bc => vol_flag e rj bc))) := by
  constructor
  · intro r h
    rw [side_external_residual] at h
    cases hrun : runSideDispatch e rj (sideMatched e bcmap) (f, jac, false) with
    | error u => rw [hrun] at h; exact absurd h (by simp [Except.map])
    | ok s =>
      rw [hrun] at h
      simp only [Except.map, Except.ok.injEq] at h
      rw [← h]
      have := runSideDispatch_flag e rj (sideMatched e bcmap) (f, jac, false)
        s hrun
      simp only [Bool.false_or] at this
      rw [this]
  · intro r h
    rw [volume_external_residual] at h
    cases hrun : runVolDispatch e rj (equalRange bcmap e.subdomain_id)
        (f, jac, false) with
    | error u => rw [hrun] at h; exact absurd h (by simp [Except.map])
    | ok s =>
      rw [hrun] at h
      simp only [Except.map, Except.ok.injEq] at h
      rw [← h]
      have := runVolDispatch_flag e rj (equalRange bcmap e.subdomain_id)
        (f, jac, false) s hrun
      simp only [Bool.false_or] at this
      rw [this]

/-- Witness for C1 (amended) on concrete dispatches: a side dispatch
whose only handler reports no Jacobian returns `false` even though the
caller requested one, and a volume dispatch whose thermal handler
reports a Jacobian returns `true`. -/
theorem dispatch_return_flag_witness :
    (side_external_residual elemB true zeroF zeroJ [(5, bc0)] =
      .ok (zeroF + transform_vector_to_global_system elemB
            (spr_local_f elemB (elemB.sideFE 0) bc0.pressure), zeroJ, false) ∧
      false = (true && (sideMatched elemB [(5, bc0)]).any
        (fun p => side_flag elemB true p.2))) ∧
    (volume_external_residual elemB true zeroF zeroJ [(5, bcTemp)] =
      .ok (zeroF, zeroJ, true) ∧
      true = (true && (equalRange [(5, bcTemp)] elemB.subdomain_id).any
        (fun bc => vol_flag elemB true bc))) :=
  ⟨⟨rfl, (dispatch_return_flag 1 elemB true zeroF zeroJ [(5, bc0)]).1 _ rfl⟩,
   ⟨rfl, (dispatch_return_flag 1 elemB true zeroF zeroJ [(5, bcTemp)]).2 _ rfl⟩⟩

end MASTSpec
